import Mathlib

/-!
Verification development for the DECAF index engine
(`decaf/index/index.py`, `decaf/index/structure.py`,
`decaf/index/constraints.py`, `decaf/formats/conllu.py`).

The Python source is shallowly embedded: pure computations become Lean
functions, the mutable shard database becomes an explicit `ShardDB` record
threaded through the insertion functions, and failing operations return
`Except` values.  Machine integers are modelled as `Nat` (SQLite row IDs and
character offsets are non-negative and far from any overflow boundary in the
source's usage).
-/

namespace Decaf

/-!
## Data model entities

The `Literal` and `Structure` entity classes exported by the `decaf.index`
package (the ones consumed by `DecafIndex.add` and constructed by the CoNLL-U
parser) are not under `src/`; only the stale `src/decaf/index/structure.py`
class and their callers are.  They are therefore modelled from the spec
(§3 data model, §4.1 schema): a Literal carries `id, start, end, value`, a
Structure carries `id, start, end, type, value` plus its constituent
`literals[]`; IDs are `None` until assigned at insertion.
-/

/-- Modelled from the spec: the `Literal` entity of the `decaf.index` package
(absent from `src/`): an atomic piece of surface text over the half-open
offset range `[start, stop)`, with `id = none` until persisted. -/
structure Literal where
  id : Option Nat
  start : Nat
  stop : Nat
  value : String
  deriving Repr, DecidableEq

/-- Modelled from the spec: `Literal.serialize`, the row bound to the
`INSERT INTO literals (id, start, end, value)` statement of
`DecafIndex._add_literals`. -/
def Literal.serialize (l : Literal) : Option Nat × Nat × Nat × String :=
  (l.id, l.start, l.stop, l.value)

/-- Modelled from the spec: the `Structure` entity of the `decaf.index`
package (absent from `src/`; `src/decaf/index/structure.py` holds a stale,
incompatible class treated separately below): a typed annotation over
`[start, stop)` with an optional value and its constituent literals. -/
structure EntStructure where
  id : Option Nat
  start : Nat
  stop : Nat
  type : String
  value : Option String
  literals : List Literal
  deriving Repr, DecidableEq

/-- Modelled from the spec: the row bound to the
`INSERT INTO structures (id, start, end, type, value)` statement of
`DecafIndex._add_structures`. -/
def EntStructure.serialize (s : EntStructure) :
    Option Nat × Nat × Nat × String × Option String :=
  (s.id, s.start, s.stop, s.type, s.value)

/-!
## The stale `Structure` class of `src/decaf/index/structure.py`

This class is present in `src/` verbatim; its `serialize` method returns the
six-element tuple `(id, start, end, value, type, subsumes)`.  To compare it
with the column list of the `INSERT` statement in `DecafIndex._add_structures`
we render the tuple as a list of SQL binding cells.
-/

/-- A value bound to one `?` placeholder of an SQL statement. -/
inductive Cell where
  | intV : Nat → Cell
  | strV : String → Cell
  | boolV : Bool → Cell
  | nullV : Cell
  deriving Repr, DecidableEq

/-- `Structure` as defined in `src/decaf/index/structure.py`:
fields `start`, `end`, `value`, `type`, `subsumes`, `id`. -/
structure Structure where
  start : Nat
  stop : Nat
  value : Option String
  type : String
  subsumes : Bool
  id : Option Nat
  deriving Repr, DecidableEq

/-- Render an optional integer as an SQL binding cell (`None` binds NULL). -/
def Cell.ofOptNat : Option Nat → Cell
  | none => .nullV
  | some n => .intV n

/-- Render an optional string as an SQL binding cell (`None` binds NULL). -/
def Cell.ofOptStr : Option String → Cell
  | none => .nullV
  | some s => .strV s

/-- `Structure.serialize` from `src/decaf/index/structure.py`:
`return self.id, self.start, self.end, self.value, self.type, self.subsumes`. -/
def Structure.serialize (s : Structure) : List Cell :=
  [Cell.ofOptNat s.id, .intV s.start, .intV s.stop,
   Cell.ofOptStr s.value, .strV s.type, .boolV s.subsumes]

/-- The column list of the structures `INSERT` statement in
`DecafIndex._add_structures`:
`INSERT INTO structures (id, start, end, type, value) VALUES (?, ?, ?, ?, ?)`. -/
def structuresInsertColumns : List String :=
  ["id", "start", "end", "type", "value"]

/-!
## The shard database and `DecafIndex.add`

A shard's four tables (`literals`, `structures`, `structure_literals`,
`hierarchical_structures`) are modelled as lists of rows in insertion order.
`DecafIndex._add_literals`, `_add_structures` and `_add_hierarchies` are
embedded from `src/decaf/index/index.py`; the Python `assert` statements
become `Except.error` results.
-/

/-- The four tables of one shard, as lists of rows in insertion order. -/
structure ShardDB where
  literals : List (Option Nat × Nat × Nat × String)
  structures : List (Option Nat × Nat × Nat × String × Option String)
  structureLiterals : List (Option Nat × Option Nat)
  hierarchies : List (Option Nat × Option Nat)
  deriving Repr, DecidableEq

/-- The empty shard, as created from `schema.sql`. -/
def ShardDB.empty : ShardDB := ⟨[], [], [], []⟩

/-- `DecafIndex._get_last_id`: `SELECT MAX(id) FROM <table>`, with `NULL`
(empty table) mapped to `0`.  `ids` are the `id` cells of the table's rows. -/
def lastId (ids : List (Option Nat)) : Nat :=
  (ids.filterMap id).foldr max 0

/-- The ID-assignment loop of `DecafIndex._add_literals`: literals whose `id`
is already assigned are skipped, the rest receive consecutive IDs starting at
`nextId`. -/
def assignLiteralIds (nextId : Nat) : List Literal → List Literal
  | [] => []
  | l :: rest =>
    match l.id with
    | some _ => l :: assignLiteralIds nextId rest
    | none => { l with id := some nextId } :: assignLiteralIds (nextId + 1) rest

/-- `DecafIndex._add_literals`: assign IDs (starting after the table's last
ID), then `executemany` the serialized rows of *all* given literals.  Returns
the updated shard and the literal list as mutated by the ID assignment. -/
def addLiterals (db : ShardDB) (literals : List Literal) :
    ShardDB × List Literal :=
  let nextId := lastId (db.literals.map (·.1)) + 1
  let literals' := assignLiteralIds nextId literals
  ({ db with literals := db.literals ++ literals'.map Literal.serialize },
   literals')

/-- The per-structure loop of `DecafIndex._add_structures`: for each structure
first `assert` that all of its literals carry an ID, then skip ID assignment
for structures that already carry one; newly assigned structures also
contribute their `(structure_id, literal_id)` rows for `structure_literals`.
Returns the mutated structure list together with the gathered
`structure_literals` rows, or the assertion failure. -/
def assignStructureIds (nextId : Nat) :
    List EntStructure →
    Except String (List EntStructure × List (Option Nat × Option Nat))
  | [] => .ok ([], [])
  | s :: rest =>
    if s.literals.all (fun l => l.id.isSome) then
      match s.id with
      | some _ => do
        let (rest', slRows) ← assignStructureIds nextId rest
        .ok (s :: rest', slRows)
      | none => do
        let s' := { s with id := some nextId }
        let (rest', slRows) ← assignStructureIds (nextId + 1) rest
        .ok (s' :: rest', s'.literals.map (fun l => (some nextId, l.id)) ++ slRows)
    else
      .error "[Error] Please make sure to add all literals to the index before adding the corresponding structures."

/-- `DecafIndex._add_structures`: run the ID-assignment/assertion loop, then
`executemany` the serialized rows of *all* given structures followed by the
gathered `structure_literals` rows.  On assertion failure no row of either
table is inserted. -/
def addStructures (db : ShardDB) (structures : List EntStructure) :
    Except String (ShardDB × List EntStructure) := do
  let nextId := lastId (db.structures.map (·.1)) + 1
  let (structures', slRows) ← assignStructureIds nextId structures
  .ok ({ db with
          structures := db.structures ++ structures'.map EntStructure.serialize,
          structureLiterals := db.structureLiterals ++ slRows },
       structures')

/-- `DecafIndex._add_hierarchies`: `assert` that every edge's parent and child
carry an ID, then `executemany` the `(parent_id, child_id)` rows. -/
def addHierarchies (db : ShardDB)
    (hierarchies : List (EntStructure × EntStructure)) :
    Except String ShardDB :=
  if hierarchies.all (fun pc => pc.1.id.isSome && pc.2.id.isSome) then
    .ok { db with
           hierarchies :=
             db.hierarchies ++ hierarchies.map (fun pc => (pc.1.id, pc.2.id)) }
  else
    .error "[Error] Please make sure to add all structures to the index before adding the corresponding hierarchies."

/-- `DecafIndex.add`: insert literals, then structures, then hierarchies.
A raised assertion propagates immediately; the shard state reached so far is
returned together with the error (SQLite's deferred transaction leaves the
already-executed inserts of the call visible on the connection). -/
def DecafIndex.add (db : ShardDB) (literals : List Literal)
    (structures : List EntStructure)
    (hierarchies : List (EntStructure × EntStructure)) :
    ShardDB × Option String :=
  let (db1, _) := addLiterals db literals
  match addStructures db1 structures with
  | .error e => (db1, some e)
  | .ok (db2, _) =>
    match addHierarchies db2 hierarchies with
    | .error e => (db2, some e)
    | .ok db3 => (db3, none)

/-!
## Constraint algebra (`src/decaf/index/constraints.py`)

`Condition.to_sql`, `to_prefilter_sql` and `to_grouped_sql` render SQL
predicate strings over the columns `type`, `value` and (after the literal
join) `literal`.  We embed the *denotation* of each rendered predicate as a
Boolean function over a row `(type, value, literal)`, mirroring the rendered
SQL clause for clause.  `to_prefilter_sql` iterates over `self.values`
unconditionally, so its rendering is only defined when `values` is given;
this is captured by guarding on `Condition.values`.
-/

/-- A structure row as seen by the rendered predicates: its `type` and
`value` columns and the group-concatenated `literal` column provided by the
literal join. -/
structure SRow where
  type : String
  value : String
  literal : String
  deriving Repr, DecidableEq

/-- `Condition` from `src/decaf/index/constraints.py`:
`type`, optional `values`, optional `literal`, `min_count` (default 0). -/
structure Condition where
  type : String
  values : Option (List String)
  literal : Option String
  minCount : Nat
  deriving Repr, DecidableEq

/-- `Condition.has_literals`: `self.literal is not None`. -/
def Condition.hasLiterals (c : Condition) : Bool :=
  c.literal.isSome

/-- Denotation of `Condition.to_sql`:
`type = "<type>"`, `AND value IN (<values>)` when `values` is given,
`AND literal = "<literal>"` when `literal` is given. -/
def Condition.toSqlHolds (c : Condition) (r : SRow) : Bool :=
  r.type = c.type
    && (match c.values with
        | none => true
        | some vs => vs.contains r.value)
    && (match c.literal with
        | none => true
        | some l => r.literal = l)

/-- Whether `Condition.to_prefilter_sql(only_literals)` renders a non-empty
string: it returns `''` when `only_literals` is set and the condition has no
literal. -/
def Condition.prefilterNonempty (onlyLiterals : Bool) (c : Condition) : Bool :=
  !(onlyLiterals && c.literal.isNone)

/-- Denotation of `Condition.to_prefilter_sql` when it renders a predicate:
`type = "<type>" AND value IN (<values>)` (the literal clause is dropped).
The rendering iterates over `self.values`, hence is defined only when
`values` is given; the `getD []` default never applies under that guard. -/
def Condition.toPrefilterHolds (c : Condition) (r : SRow) : Bool :=
  r.type = c.type && (c.values.getD []).contains r.value

/-- The summand of `Condition.to_grouped_sql` for one value `v`:
`CASE WHEN type = "<type>" AND value = "<v>" [AND literal = "<literal>"]
THEN 1 ELSE 0 END`. -/
def Condition.groupedMatch (c : Condition) (v : String) (r : SRow) : Bool :=
  r.type = c.type && r.value = v
    && (match c.literal with
        | none => true
        | some l => r.literal = l)

/-- `SUM(CASE WHEN … THEN 1 ELSE 0 END)` over the rows grouped under one
parent structure. -/
def Condition.groupedSum (c : Condition) (v : String) (group : List SRow) :
    Nat :=
  group.foldr (fun r acc => (if c.groupedMatch v r then 1 else 0) + acc) 0

/-- Denotation of `Condition.to_grouped_sql` over a parent's group of rows:
for each `v` in `values`, `SUM(CASE WHEN …) > min_count`, joined with `AND`.
The rendering iterates over `self.values`, hence is defined only when
`values` is given; the `getD []` default never applies under that guard. -/
def Condition.toGroupedHolds (c : Condition) (group : List SRow) : Bool :=
  (c.values.getD []).all (fun v => c.minCount < c.groupedSum v group)

/-- The joining operation of a `Criterion`.  The source stores the SQL
keyword as a string; only `AND` and `OR` are meaningful. -/
inductive Op where
  | and
  | or
  deriving Repr, DecidableEq

/-- `Criterion` from `src/decaf/index/constraints.py`: a list of conditions
joined by one operation. -/
structure Criterion where
  conditions : List Condition
  operation : Op
  deriving Repr, DecidableEq

/-- `Criterion.has_literals`: `any(c.has_literals() for c in conditions)`. -/
def Criterion.hasLiterals (cr : Criterion) : Bool :=
  cr.conditions.any Condition.hasLiterals

/-- Denotation of `Criterion.to_sql`: the conditions' row-level predicates
joined with the criterion's operation. -/
def Criterion.toSqlHolds (cr : Criterion) (r : SRow) : Bool :=
  match cr.operation with
  | .and => cr.conditions.all (fun c => c.toSqlHolds r)
  | .or => cr.conditions.any (fun c => c.toSqlHolds r)

/-- Denotation of `Criterion.to_prefilter_sql`: the conditions whose
prefilter renders non-empty, joined with `OR` regardless of the criterion's
operation (conjunctive criteria are relaxed to disjunctions). -/
def Criterion.toPrefilterHolds (cr : Criterion) (onlyLiterals : Bool)
    (r : SRow) : Bool :=
  (cr.conditions.filter (Condition.prefilterNonempty onlyLiterals)).any
    (fun c => c.toPrefilterHolds r)

/-!
## `ConlluBatcher` (`src/decaf/formats/conllu.py`)

`get_batches` streams sentences and groups them into batches.  Only a
sentence's metadata keys matter to the batcher, so a sentence is modelled by
its metadata key list.  The embedding mirrors the loop state: the current
`batch` and the sticky `in_boundary` flag.
-/

/-- A sentence as seen by the batcher: its metadata keys. -/
structure Sent where
  metadata : List String
  deriving Repr, DecidableEq

/-- `ConlluBatcher.get_boundary`: returns `'document'` when the sentence's
metadata contains `newdoc` or `newdoc id`, else `None`. -/
def getBoundary (s : Sent) : Option String :=
  if s.metadata.contains "newdoc" || s.metadata.contains "newdoc id" then
    some "document"
  else
    none

/-- The loop of `ConlluBatcher.get_batches`, carrying the current `batch`
and the `in_boundary` flag.  Per sentence: once the batch has reached
`batchSize`, a document boundary completes a non-empty batch and sets
`in_boundary`; without a boundary the batch completes only while
`in_boundary` is still unset.  A completed batch is yielded and the sentence
starts the next one; otherwise the sentence is appended.  The final batch is
always yielded. -/
def getBatchesGo (batchSize : Nat) (batch : List Sent) (inBoundary : Bool) :
    List Sent → List (List Sent)
  | [] => [batch]
  | s :: rest =>
    if batchSize ≤ batch.length then
      if (getBoundary s).isSome then
        if 0 < batch.length then
          batch :: getBatchesGo batchSize [s] true rest
        else
          getBatchesGo batchSize (batch ++ [s]) true rest
      else
        if inBoundary then
          getBatchesGo batchSize (batch ++ [s]) inBoundary rest
        else
          batch :: getBatchesGo batchSize [s] inBoundary rest
    else
      getBatchesGo batchSize (batch ++ [s]) inBoundary rest

/-- `ConlluBatcher.get_batches` over the (window-filtered) sentence stream:
start from an empty batch with `in_boundary = False`. -/
def getBatches (batchSize : Nat) (sentences : List Sent) :
    List (List Sent) :=
  getBatchesGo batchSize [] false sentences

/-!
## Shard manager: `query_shards` (`src/decaf/index/index.py`)
-/

/-- The worker-pool size of `DecafIndex.query_shards`:
`max(1, mp.cpu_count() // 2)`. -/
def numCpus (cpuCount : Nat) : Nat :=
  max 1 (cpuCount / 2)

/-- The `starmap` chunk size of `DecafIndex.query_shards`:
`max(1, len(self.shards) // num_cpus)`. -/
def chunksize (numShards nCpus : Nat) : Nat :=
  max 1 (numShards / nCpus)

/-- Splitting the shard-query list into consecutive `starmap` chunks of size
`c` (the last chunk possibly shorter).  The `max 1` guard matches the
source's `chunksize ≥ 1` and makes the recursion well-founded. -/
def chunkList (c : Nat) : List α → List (List α)
  | [] => []
  | x :: xs =>
    (x :: xs).take (max 1 c) :: chunkList c ((x :: xs).drop (max 1 c))
termination_by l => l.length
decreasing_by
  simp only [List.length_drop, List.length_cons]
  omega

/-- The query/shard pairing of `DecafIndex.query_shards`: a single query is
broadcast to every shard; otherwise the query count must equal the shard
count and queries are zipped with shards; otherwise a `ValueError` is raised
before any shard is queried. -/
def queryShardPairs (queries : List α) (shards : List β) :
    Except String (List (α × β)) :=
  match queries with
  | [q] => .ok (shards.map (fun sh => (q, sh)))
  | _ =>
    if queries.length = shards.length then
      .ok (queries.zip shards)
    else
      .error "The number of queries does not match the number of shards."

/-!
## Export functions (`src/decaf/index/index.py`)
-/

/-- A row of the `literals` table as read by `export_ranges`:
`start`, `end`, `value`. -/
structure LitRow where
  start : Nat
  stop : Nat
  value : String
  deriving Repr, DecidableEq

/-- The `WHERE` clause of the `export_ranges` query:
`start >= ? AND end <= ?`, or with `invert` `start < ? AND end > ?`,
with the range's `(start, end)` bound to the placeholders. -/
def exportRangeCond (invert : Bool) (s e : Nat) (l : LitRow) : Bool :=
  (if invert then decide (l.start < s) else decide (s ≤ l.start))
    && (if invert then decide (e < l.stop) else decide (l.stop ≤ e))

/-- One `export_ranges` query against a shard's `literals` table:
`SELECT GROUP_CONCAT(value, "")` over the rows passing the `WHERE` clause;
`GROUP_CONCAT` returns `NULL` when no row passes. -/
def exportRangeQuery (lits : List LitRow) (invert : Bool) (s e : Nat) :
    Option String :=
  match lits.filter (exportRangeCond invert s e) with
  | [] => none
  | sel => some (String.join (sel.map (·.value)))

/-- `DecafIndex.export_ranges`: per range `(shard, structure_id, start, end)`
run the query on that shard and yield the result, skipping `NULL` outputs. -/
def exportRanges (shardLits : Nat → List LitRow)
    (ranges : List (Nat × Nat × Nat × Nat)) (invert : Bool) : List String :=
  ranges.filterMap (fun r => exportRangeQuery (shardLits r.1) invert r.2.2.1 r.2.2.2)

/-- The literal lies inside the range `[s, e)` (the spec's reading of the
non-inverted `export_ranges` selection). -/
def insideRange (s e : Nat) (l : LitRow) : Prop :=
  s ≤ l.start ∧ l.stop ≤ e

/-- The literal strictly contains the range `[s, e)` (what the inverted
`export_ranges` selection actually computes). -/
def containsRange (s e : Nat) (l : LitRow) : Prop :=
  l.start < s ∧ e < l.stop

/-- The literal lies entirely outside the range `[s, e)` (the claim's reading
of the inverted selection). -/
def outsideRange (s e : Nat) (l : LitRow) : Prop :=
  l.stop ≤ s ∨ e ≤ l.start

instance (s e : Nat) (l : LitRow) : Decidable (insideRange s e l) :=
  inferInstanceAs (Decidable (s ≤ l.start ∧ l.stop ≤ e))

instance (s e : Nat) (l : LitRow) : Decidable (containsRange s e l) :=
  inferInstanceAs (Decidable (l.start < s ∧ e < l.stop))

instance (s e : Nat) (l : LitRow) : Decidable (outsideRange s e l) :=
  inferInstanceAs (Decidable (l.stop ≤ s ∨ e ≤ l.start))

/-!
## `export_structures` (`src/decaf/index/index.py`)

`export_structures` groups its input pairs by shard, queries all shards in
parallel, collects the interleaved `(shard_idx, (structure_id, export))` rows
into the nested dictionary `shard_exports`, and finally yields the exports in
the original input order.  The dictionary build is modelled as a fold where a
later row for the same key overwrites an earlier one.
-/

/-- The `shard_exports` dictionary lookup after folding the interleaved query
result rows `(shard_idx, structure_id, export)`: the last row written for the
key wins. -/
def shardExports (results : List (Nat × Nat × String)) (sh sid : Nat) :
    Option String :=
  results.foldl
    (fun acc r => if r.1 = sh && r.2.1 = sid then some r.2.2 else acc)
    none

/-- The final loop of `DecafIndex.export_structures`: yield, per input pair
in input order, the collected export (`none` models the `KeyError` raised
when a pair has no collected row). -/
def exportStructures (inputs : List (Nat × Nat))
    (results : List (Nat × Nat × String)) : List (Option String) :=
  inputs.map (fun p => shardExports results p.1 p.2)

/-!
## Helper lemmas
-/

/-- The summed `CASE WHEN` indicator of `to_grouped_sql` counts the matching
rows of the group. -/
theorem groupedSum_eq_countP (c : Condition) (v : String) (g : List SRow) :
    c.groupedSum v g = g.countP (fun r => c.groupedMatch v r) := by
  induction g with
  | nil => rfl
  | cons r rs ih =>
    simp only [Condition.groupedSum, List.foldr_cons, List.countP_cons]
    rw [show rs.foldr (fun r acc => (if c.groupedMatch v r then 1 else 0) + acc) 0
          = c.groupedSum v rs from rfl, ih]
    cases h : c.groupedMatch v r with
    | false => simp [h]
    | true =>
      simp [h]
      omega

/-- Concatenating the chunks handed to the worker pool restores the original
shard list. -/
theorem chunkList_flatten (c : Nat) :
    ∀ l : List α, (chunkList c l).flatten = l := by
  suffices h : ∀ (n : Nat) (l : List α), l.length = n → (chunkList c l).flatten = l by
    exact fun l => h l.length l rfl
  intro n
  induction n using Nat.strong_induction_on with
  | _ n ih =>
    intro l hl
    match l with
    | [] => rw [chunkList]; rfl
    | x :: xs =>
      rw [chunkList, List.flatten_cons,
          ih ((x :: xs).drop (max 1 c)).length (by simp only [List.length_drop, List.length_cons] at hl ⊢; omega) _ rfl]
      exact List.take_append_drop _ _

/-- Every chunk handed to the worker pool has at most `max 1 c` shards. -/
theorem chunkList_length_le (c : Nat) :
    ∀ (l : List α), ∀ ch ∈ chunkList c l, ch.length ≤ max 1 c := by
  suffices h : ∀ (n : Nat) (l : List α), l.length = n →
      ∀ ch ∈ chunkList c l, ch.length ≤ max 1 c by
    exact fun l => h l.length l rfl
  intro n
  induction n using Nat.strong_induction_on with
  | _ n ih =>
    intro l hl
    match l with
    | [] => rw [chunkList]; intro ch hch; cases hch
    | x :: xs =>
      rw [chunkList]
      intro ch hch
      rcases List.mem_cons.mp hch with h | h
      · subst h; exact List.length_take_le _ _
      · exact ih ((x :: xs).drop (max 1 c)).length (by simp only [List.length_drop, List.length_cons] at hl ⊢; omega) _ rfl ch h

/-- A condition's row-level predicate implies its prefilter predicate
(whenever the prefilter is rendered, i.e. `values` is given). -/
theorem toSqlHolds_implies_toPrefilterHolds (c : Condition) (r : SRow)
    (hv : c.values.isSome = true) (hs : c.toSqlHolds r = true) :
    c.toPrefilterHolds r = true := by
  obtain ⟨vs, h⟩ := Option.isSome_iff_exists.mp hv
  rw [Condition.toSqlHolds, h] at hs
  rw [Condition.toPrefilterHolds, h]
  simp only [Bool.and_eq_true] at hs ⊢
  exact ⟨hs.1.1, hs.1.2⟩

/-- The `shard_exports` dictionary fold: when the query rows are functional
(each row's export is determined by its `(shard, structure_id)` key) and the
key occurs among the rows, the lookup yields that determined export,
whatever the interleaving order of the rows. -/
theorem shardExports_foldl_lookup (f : Nat × Nat → String) :
    ∀ (results : List (Nat × Nat × String)) (acc : Option String) (sh sid : Nat),
      (∀ r ∈ results, r.2.2 = f (r.1, r.2.1)) →
      ((∃ r ∈ results, r.1 = sh ∧ r.2.1 = sid) ∨ acc = some (f (sh, sid))) →
      results.foldl
          (fun acc r => if r.1 = sh && r.2.1 = sid then some r.2.2 else acc) acc
        = some (f (sh, sid)) := by
  intro results
  induction results with
  | nil =>
    intro acc sh sid _ hstart
    rcases hstart with ⟨r, hr, _⟩ | hacc
    · cases hr
    · exact hacc
  | cons r rs ih =>
    intro acc sh sid hfun hstart
    rw [List.foldl_cons]
    by_cases hkey : (r.1 = sh && r.2.1 = sid) = true
    · rw [if_pos hkey]
      apply ih _ sh sid (fun r' hr' => hfun r' (List.mem_cons_of_mem _ hr'))
      right
      simp only [Bool.and_eq_true, decide_eq_true_eq] at hkey
      rw [hfun r (List.mem_cons_self _ _), hkey.1, hkey.2]
    · rw [if_neg hkey]
      apply ih acc sh sid (fun r' hr' => hfun r' (List.mem_cons_of_mem _ hr'))
      rcases hstart with ⟨r', hr', hmatch⟩ | hacc
      · rcases List.mem_cons.mp hr' with heq | hmem
        · subst heq
          exact absurd (by simp [hmatch.1, hmatch.2]) hkey
        · exact Or.inl ⟨r', hmem, hmatch⟩
      · exact Or.inr hacc

/-- `DecafIndex.add` unfolded into its three stages. -/
theorem DecafIndex.add_eq (db : ShardDB) (lits : List Literal)
    (structs : List EntStructure)
    (hiers : List (EntStructure × EntStructure)) :
    DecafIndex.add db lits structs hiers =
      match addStructures (addLiterals db lits).1 structs with
      | .error e => ((addLiterals db lits).1, some e)
      | .ok (db2, _) =>
        match addHierarchies db2 hiers with
        | .error e => (db2, some e)
        | .ok db3 => (db3, none) := rfl

/-- The structure-stage assertion fires exactly when some structure
references a literal without an assigned ID; the loop raises before any
insert. -/
theorem assignStructureIds_error :
    ∀ (structs : List EntStructure) (n : Nat),
      (∃ s ∈ structs, ∃ l ∈ s.literals, l.id = none) →
      ∃ e, assignStructureIds n structs = .error e := by
  intro structs
  induction structs with
  | nil =>
    intro n h
    obtain ⟨s, hs, _⟩ := h
    cases hs
  | cons s rest ih =>
    intro n h
    by_cases hall : s.literals.all (fun l => l.id.isSome) = true
    · have hrest : ∃ s' ∈ rest, ∃ l ∈ s'.literals, l.id = none := by
        obtain ⟨s', hs', l, hl, hid⟩ := h
        rcases List.mem_cons.mp hs' with heq | hmem
        · subst heq
          rw [List.all_eq_true] at hall
          have := hall l hl
          rw [hid] at this
          cases this
        · exact ⟨s', hmem, l, hl, hid⟩
      cases hsid : s.id with
      | some i =>
        obtain ⟨e, he⟩ := ih n hrest
        refine ⟨e, ?_⟩
        simp only [assignStructureIds, hall, if_true, hsid, he]
        rfl
      | none =>
        obtain ⟨e, he⟩ := ih (n + 1) hrest
        refine ⟨e, ?_⟩
        simp only [assignStructureIds, hall, if_true, hsid, he]
        rfl
    · refine ⟨"[Error] Please make sure to add all literals to the index before adding the corresponding structures.", ?_⟩
      simp only [assignStructureIds]
      rw [if_neg hall]

/-- When every structure's literals carry IDs, the structure-stage loop
completes. -/
theorem assignStructureIds_ok :
    ∀ (structs : List EntStructure) (n : Nat),
      (∀ s ∈ structs, ∀ l ∈ s.literals, l.id.isSome = true) →
      ∃ res, assignStructureIds n structs = .ok res := by
  intro structs
  induction structs with
  | nil =>
    intro n _
    exact ⟨([], []), rfl⟩
  | cons s rest ih =>
    intro n h
    have hall : s.literals.all (fun l => l.id.isSome) = true :=
      List.all_eq_true.mpr (fun l hl => h s (List.mem_cons_self _ _) l hl)
    have hrest : ∀ s' ∈ rest, ∀ l ∈ s'.literals, l.id.isSome = true :=
      fun s' hs' => h s' (List.mem_cons_of_mem _ hs')
    cases hsid : s.id with
    | some i =>
      obtain ⟨res, hres⟩ := ih n hrest
      refine ⟨(s :: res.1, res.2), ?_⟩
      simp only [assignStructureIds, hall, if_true, hsid, hres]
      rfl
    | none =>
      obtain ⟨res, hres⟩ := ih (n + 1) hrest
      refine ⟨({ s with id := some n } :: res.1,
               ({ s with id := some n } : EntStructure).literals.map
                   (fun l => (some n, l.id)) ++ res.2), ?_⟩
      simp only [assignStructureIds, hall, if_true, hsid, hres]
      rfl

/-- `_add_structures` propagates the assertion failure without touching the
shard. -/
theorem addStructures_error (db : ShardDB) (structs : List EntStructure)
    (e : String)
    (he : assignStructureIds (lastId (db.structures.map (·.1)) + 1) structs
            = .error e) :
    addStructures db structs = .error e := by
  simp only [addStructures, he]
  rfl

/-- `_add_structures` on a passing loop appends the serialized structures and
the gathered `structure_literals` rows. -/
theorem addStructures_ok (db : ShardDB) (structs : List EntStructure)
    (res : List EntStructure × List (Option Nat × Option Nat))
    (hres : assignStructureIds (lastId (db.structures.map (·.1)) + 1) structs
              = .ok res) :
    addStructures db structs
      = .ok ({ db with
                structures := db.structures ++ res.1.map EntStructure.serialize,
                structureLiterals := db.structureLiterals ++ res.2 },
             res.1) := by
  simp only [addStructures, hres]
  rfl

/-- `_add_hierarchies` raises when some edge misses an endpoint ID, without
touching the shard. -/
theorem addHierarchies_error (db : ShardDB)
    (hiers : List (EntStructure × EntStructure))
    (h : ∃ pc ∈ hiers, pc.1.id = none ∨ pc.2.id = none) :
    ∃ e, addHierarchies db hiers = .error e := by
  refine ⟨"[Error] Please make sure to add all structures to the index before adding the corresponding hierarchies.", ?_⟩
  rw [addHierarchies, if_neg]
  intro hall
  rw [List.all_eq_true] at hall
  obtain ⟨pc, hpc, hbad⟩ := h
  have := hall pc hpc
  rw [Bool.and_eq_true] at this
  rcases hbad with hb | hb
  · rw [hb] at this
    cases this.1
  · rw [hb] at this
    cases this.2

/-- `_add_hierarchies` with complete endpoint IDs appends the edge rows. -/
theorem addHierarchies_ok (db : ShardDB)
    (hiers : List (EntStructure × EntStructure))
    (h : ∀ pc ∈ hiers, pc.1.id.isSome = true ∧ pc.2.id.isSome = true) :
    addHierarchies db hiers
      = .ok { db with
               hierarchies :=
                 db.hierarchies ++ hiers.map (fun pc => (pc.1.id, pc.2.id)) } := by
  rw [addHierarchies, if_pos]
  rw [List.all_eq_true]
  intro pc hpc
  rw [Bool.and_eq_true]
  exact h pc hpc

/-- Appending a sentence to a batch preserves the boundary-position
invariant, provided a boundary sentence is only appended while the batch is
empty or still below capacity. -/
theorem batch_boundary_append (bs : Nat) (batch : List Sent) (s : Sent)
    (hP : ∀ i (h : i < batch.length),
      (getBoundary (batch.get ⟨i, h⟩)).isSome = true → i = 0 ∨ i < bs)
    (hs : (getBoundary s).isSome = true → batch.length = 0 ∨ batch.length < bs) :
    ∀ i (h : i < (batch ++ [s]).length),
      (getBoundary ((batch ++ [s]).get ⟨i, h⟩)).isSome = true →
      i = 0 ∨ i < bs := by
  intro i h hbound
  rcases Nat.lt_or_ge i batch.length with hi | hi
  · refine hP i hi ?_
    rw [List.get_eq_getElem] at hbound ⊢
    rw [List.getElem_append_left hi] at hbound
    exact hbound
  · have hlen : i = batch.length := by
      rw [List.length_append, List.length_singleton] at h
      omega
    subst hlen
    rw [List.get_eq_getElem, List.getElem_concat_length _ _ _ rfl] at hbound
    exact hs hbound

/-- Every batch produced by the `get_batches` loop satisfies the
boundary-position invariant, provided the running batch does. -/
theorem getBatchesGo_boundary_inv (bs : Nat) :
    ∀ (rest batch : List Sent) (inB : Bool),
      (∀ i (h : i < batch.length),
        (getBoundary (batch.get ⟨i, h⟩)).isSome = true → i = 0 ∨ i < bs) →
      ∀ b ∈ getBatchesGo bs batch inB rest,
        ∀ i (h : i < b.length),
          (getBoundary (b.get ⟨i, h⟩)).isSome = true → i = 0 ∨ i < bs := by
  intro rest
  induction rest with
  | nil =>
    intro batch inB hP b hb
    rw [getBatchesGo] at hb
    rcases List.mem_singleton.mp hb with rfl
    exact hP
  | cons s rest ih =>
    intro batch inB hP b hb
    have hsingle : ∀ i (h : i < ([s] : List Sent).length),
        (getBoundary (([s] : List Sent).get ⟨i, h⟩)).isSome = true →
        i = 0 ∨ i < bs := by
      intro i h _
      left
      rw [List.length_singleton] at h
      omega
    rw [getBatchesGo] at hb
    by_cases hcap : bs ≤ batch.length
    · rw [if_pos hcap] at hb
      by_cases hbound : (getBoundary s).isSome = true
      · rw [if_pos hbound] at hb
        by_cases hne : 0 < batch.length
        · rw [if_pos hne] at hb
          rcases List.mem_cons.mp hb with rfl | hmem
          · exact hP
          · exact ih [s] true hsingle b hmem
        · rw [if_neg hne] at hb
          have hempty : batch.length = 0 := by omega
          exact ih (batch ++ [s]) true
            (batch_boundary_append bs batch s hP (fun _ => Or.inl hempty))
            b hb
      · rw [if_neg hbound] at hb
        cases hinB : inB with
        | true =>
          rw [hinB, if_pos rfl] at hb
          exact ih (batch ++ [s]) true
            (batch_boundary_append bs batch s hP
              (fun hcontra => absurd hcontra hbound))
            b hb
        | false =>
          rw [hinB] at hb
          simp only [Bool.false_eq_true, if_false] at hb
          rcases List.mem_cons.mp hb with rfl | hmem
          · exact hP
          · exact ih [s] false hsingle b hmem
    · rw [if_neg hcap] at hb
      exact ih (batch ++ [s]) inB
        (batch_boundary_append bs batch s hP (fun _ => Or.inr (by omega)))
        b hb

/-!
## Claims
-/

/-- C1: `DecafIndex.add` inserts literals first, structures second,
hierarchies last.  If some structure references a literal whose ID is still
unassigned, the call fails with the integrity assertion and no row of the
structures stage (neither `structures` nor `structure_literals`) nor of the
hierarchies stage is inserted, while the literal stage's rows are already in.
If the structures stage passes but some hierarchy edge misses an endpoint
ID, the call fails and no `hierarchical_structures` row is inserted while
the two earlier stages' rows are in.  With all references assigned, all
three stages append their rows and no error is raised. -/
theorem add_stage_ordering_and_integrity (db : ShardDB)
    (lits : List Literal) (structs : List EntStructure)
    (hiers : List (EntStructure × EntStructure)) :
    ((∃ s ∈ structs, ∃ l ∈ s.literals, l.id = none) →
      (DecafIndex.add db lits structs hiers).2.isSome = true ∧
      (DecafIndex.add db lits structs hiers).1.literals
        = db.literals ++ (assignLiteralIds (lastId (db.literals.map (·.1)) + 1)
            lits).map Literal.serialize ∧
      (DecafIndex.add db lits structs hiers).1.structures = db.structures ∧
      (DecafIndex.add db lits structs hiers).1.structureLiterals
        = db.structureLiterals ∧
      (DecafIndex.add db lits structs hiers).1.hierarchies = db.hierarchies) ∧
    ((∀ s ∈ structs, ∀ l ∈ s.literals, l.id.isSome = true) →
     (∃ pc ∈ hiers, pc.1.id = none ∨ pc.2.id = none) →
      (DecafIndex.add db lits structs hiers).2.isSome = true ∧
      (∃ srows slrows,
        (DecafIndex.add db lits structs hiers).1.literals
          = db.literals ++ (assignLiteralIds (lastId (db.literals.map (·.1)) + 1)
              lits).map Literal.serialize ∧
        (DecafIndex.add db lits structs hiers).1.structures
          = db.structures ++ srows ∧
        (DecafIndex.add db lits structs hiers).1.structureLiterals
          = db.structureLiterals ++ slrows) ∧
      (DecafIndex.add db lits structs hiers).1.hierarchies = db.hierarchies) ∧
    ((∀ s ∈ structs, ∀ l ∈ s.literals, l.id.isSome = true) →
     (∀ pc ∈ hiers, pc.1.id.isSome = true ∧ pc.2.id.isSome = true) →
      (DecafIndex.add db lits structs hiers).2 = none ∧
      (∃ srows slrows,
        (DecafIndex.add db lits structs hiers).1.literals
          = db.literals ++ (assignLiteralIds (lastId (db.literals.map (·.1)) + 1)
              lits).map Literal.serialize ∧
        (DecafIndex.add db lits structs hiers).1.structures
          = db.structures ++ srows ∧
        (DecafIndex.add db lits structs hiers).1.structureLiterals
          = db.structureLiterals ++ slrows) ∧
      (DecafIndex.add db lits structs hiers).1.hierarchies
        = db.hierarchies ++ hiers.map (fun pc => (pc.1.id, pc.2.id))) := by
  refine ⟨?_, ?_, ?_⟩
  · intro h
    obtain ⟨e, he⟩ := assignStructureIds_error structs
      (lastId ((addLiterals db lits).1.structures.map (·.1)) + 1) h
    have hs : addStructures (addLiterals db lits).1 structs = .error e :=
      addStructures_error _ _ _ he
    rw [DecafIndex.add_eq, hs]
    exact ⟨rfl, rfl, rfl, rfl, rfl⟩
  · intro hok hbad
    obtain ⟨res, hres⟩ := assignStructureIds_ok structs
      (lastId ((addLiterals db lits).1.structures.map (·.1)) + 1) hok
    have hs := addStructures_ok (addLiterals db lits).1 structs res hres
    obtain ⟨e, hh⟩ := addHierarchies_error
      ⟨(addLiterals db lits).1.literals,
       (addLiterals db lits).1.structures ++ res.1.map EntStructure.serialize,
       (addLiterals db lits).1.structureLiterals ++ res.2,
       (addLiterals db lits).1.hierarchies⟩ hiers hbad
    rw [DecafIndex.add_eq, hs]
    dsimp only
    rw [hh]
    exact ⟨rfl, ⟨res.1.map EntStructure.serialize, res.2, rfl, rfl, rfl⟩, rfl⟩
  · intro hok hall
    obtain ⟨res, hres⟩ := assignStructureIds_ok structs
      (lastId ((addLiterals db lits).1.structures.map (·.1)) + 1) hok
    have hs := addStructures_ok (addLiterals db lits).1 structs res hres
    have hh := addHierarchies_ok
      ⟨(addLiterals db lits).1.literals,
       (addLiterals db lits).1.structures ++ res.1.map EntStructure.serialize,
       (addLiterals db lits).1.structureLiterals ++ res.2,
       (addLiterals db lits).1.hierarchies⟩ hiers hall
    rw [DecafIndex.add_eq, hs]
    dsimp only
    rw [hh]
    exact ⟨rfl, ⟨res.1.map EntStructure.serialize, res.2, rfl, rfl, rfl⟩, rfl⟩

/-- C1 (witness): adding a structure that references an unpersisted literal
fails and leaves the `structures` table empty; adding it after its literal
succeeds. -/
theorem add_stage_ordering_and_integrity_witness :
    ((DecafIndex.add ShardDB.empty []
        [⟨none, 0, 1, "token", none, [⟨none, 0, 1, "x"⟩]⟩] []).2.isSome = true ∧
     (DecafIndex.add ShardDB.empty []
        [⟨none, 0, 1, "token", none, [⟨none, 0, 1, "x"⟩]⟩] []).1.structures = []) ∧
    (DecafIndex.add ShardDB.empty [⟨none, 0, 1, "x"⟩]
        [⟨some 1, 0, 1, "token", none, []⟩] []).2 = none :=
  ⟨(by
      have h := (add_stage_ordering_and_integrity ShardDB.empty []
        [⟨none, 0, 1, "token", none, [⟨none, 0, 1, "x"⟩]⟩] []).1
        ⟨⟨none, 0, 1, "token", none, [⟨none, 0, 1, "x"⟩]⟩, by decide,
         ⟨none, 0, 1, "x"⟩, by decide, rfl⟩
      exact ⟨h.1, h.2.2.1⟩),
   ((add_stage_ordering_and_integrity ShardDB.empty [⟨none, 0, 1, "x"⟩]
        [⟨some 1, 0, 1, "token", none, []⟩] []).2.2 (by decide) (by decide)).1⟩

/-- C2: the claim says an already-persisted Literal or Structure (one whose
ID is assigned) is skipped entirely by `DecafIndex.add`, so no new row is
inserted for it.  In the code the skip only covers ID assignment: the
`executemany` batch serializes *all* given entities, so a literal carrying
ID 7 and a structure carrying ID 5 are inserted again (their IDs are left
unchanged, but a duplicate row of each is part of the insert batch). -/
theorem preassigned_entities_are_reinserted :
    (addLiterals ShardDB.empty [⟨some 7, 0, 3, "cat"⟩]).1.literals
        = [(some 7, 0, 3, "cat")] ∧
    (addLiterals ShardDB.empty [⟨some 7, 0, 3, "cat"⟩]).2
        = [⟨some 7, 0, 3, "cat"⟩] ∧
    addStructures ShardDB.empty [⟨some 5, 0, 3, "upos", some "NOUN", []⟩]
        = .ok (⟨[], [(some 5, 0, 3, "upos", some "NOUN")], [], []⟩,
               [⟨some 5, 0, 3, "upos", some "NOUN", []⟩]) := by
  refine ⟨rfl, rfl, rfl⟩

/-- C3: the claim says the row inserted for a Structure has exactly the five
columns `(id, start, end, type, value)` with the `type` column holding the
structure's `type` and the `value` column its `value`.  The `INSERT` column
list in `DecafIndex._add_structures` indeed names those five columns, but
`Structure.serialize` in `src/decaf/index/structure.py` produces *six*
binding values ordered `(id, start, end, value, type, subsumes)`: at the
failing input below the fourth binding is the structure's *value* `"NOUN"`
while the fourth column is `type`, and a sixth value `subsumes` has no
column at all. -/
theorem structure_serialize_mismatches_insert_columns :
    (Structure.serialize ⟨0, 3, some "NOUN", "upos", true, some 1⟩).length = 6 ∧
    structuresInsertColumns.length = 5 ∧
    (Structure.serialize ⟨0, 3, some "NOUN", "upos", true, some 1⟩).get? 3
        = some (.strV "NOUN") ∧
    structuresInsertColumns.get? 3 = some "type" ∧
    (Structure.serialize ⟨0, 3, some "NOUN", "upos", true, some 1⟩).get? 4
        = some (.strV "upos") ∧
    structuresInsertColumns.get? 4 = some "value" := by
  refine ⟨rfl, rfl, rfl, rfl, rfl, rfl⟩

/-- C5 (counterexample): the claim reads `min_count` as "at least `m`
matching substructures".  With `min_count = 1` and a parent group holding
exactly one matching row, "at least 1" is satisfied, yet the rendered
`HAVING` predicate `SUM(...) > 1` rejects the parent: the code's threshold
is strict. -/
theorem grouped_sql_rejects_exact_min_count :
    Condition.toGroupedHolds ⟨"upos", some ["NOUN"], none, 1⟩
        [⟨"upos", "NOUN", ""⟩] = false ∧
    Condition.groupedSum ⟨"upos", some ["NOUN"], none, 1⟩ "NOUN"
        [⟨"upos", "NOUN", ""⟩] = 1 := by
  refine ⟨rfl, rfl⟩

/-- C5 (amended): the grouped predicate of `Condition.to_grouped_sql`
accepts a parent group exactly when, for each of the condition's values,
*strictly more than* `min_count` (i.e. at least `min_count + 1`) matching
substructure rows occur inside the parent. -/
theorem grouped_sql_strict_threshold (c : Condition) (vs : List String)
    (g : List SRow) (h : c.values = some vs) :
    c.toGroupedHolds g = true ↔
      ∀ v ∈ vs, c.minCount + 1 ≤ g.countP (fun r => c.groupedMatch v r) := by
  simp only [Condition.toGroupedHolds, h, Option.getD_some, List.all_eq_true,
    decide_eq_true_eq, ← groupedSum_eq_countP]
  constructor
  · intro h' v hv
    exact h' v hv
  · intro h' v hv
    exact h' v hv

/-- C5 (witness for the amended theorem): a group with two matching rows
passes the strict threshold `min_count = 1`. -/
theorem grouped_sql_strict_threshold_witness :
    Condition.toGroupedHolds ⟨"upos", some ["NOUN"], none, 1⟩
        [⟨"upos", "NOUN", ""⟩, ⟨"upos", "NOUN", ""⟩] = true :=
  (grouped_sql_strict_threshold ⟨"upos", some ["NOUN"], none, 1⟩ ["NOUN"]
      [⟨"upos", "NOUN", ""⟩, ⟨"upos", "NOUN", ""⟩] rfl).mpr (by decide)

/-- C6 (counterexample): the claim says `export_ranges` yields, per range,
the concatenated values of the literals inside the range, and with
`invert=True` of the literals *outside* it.  The literal `[0,1) = "a"` lies
entirely outside the range `[5,10)`, yet the inverted query selects nothing
(its `WHERE start < 5 AND end > 10` asks for literals *containing* the
range); and in both directions a range whose selection is empty yields no
output at all (`GROUP_CONCAT` returns NULL, which the loop skips) instead of
an empty concatenation. -/
theorem export_ranges_invert_not_outside :
    exportRanges (fun _ => [⟨0, 1, "a"⟩]) [(0, 0, 5, 10)] true = [] ∧
    exportRanges (fun _ => [⟨0, 1, "a"⟩]) [(0, 0, 5, 10)] false = [] ∧
    outsideRange 5 10 ⟨0, 1, "a"⟩ := by
  refine ⟨rfl, rfl, by decide⟩

/-- C6 (amended): each `export_ranges` query concatenates the values of
exactly the literals selected by its `WHERE` clause — with `invert=False`
those lying inside the range, with `invert=True` those strictly containing
the range — and returns `NULL` (the range is skipped) when no literal is
selected. -/
theorem export_range_query_selection (lits : List LitRow) (s e : Nat) :
    (exportRangeQuery lits false s e =
      match lits.filter (fun l => decide (insideRange s e l)) with
      | [] => none
      | sel => some (String.join (sel.map (·.value)))) ∧
    (exportRangeQuery lits true s e =
      match lits.filter (fun l => decide (containsRange s e l)) with
      | [] => none
      | sel => some (String.join (sel.map (·.value)))) := by
  constructor
  · have hc : exportRangeCond false s e = fun l => decide (insideRange s e l) := by
      funext l
      by_cases h1 : s ≤ l.start <;> by_cases h2 : l.stop ≤ e <;>
        simp [exportRangeCond, insideRange, h1, h2]
    rw [exportRangeQuery, hc]
  · have hc : exportRangeCond true s e = fun l => decide (containsRange s e l) := by
      funext l
      by_cases h1 : l.start < s <;> by_cases h2 : e < l.stop <;>
        simp [exportRangeCond, containsRange, h1, h2]
    rw [exportRangeQuery, hc]

/-- C8 (counterexample): the claim states a chunk size of
`ceil(num_shards / pool_size)`.  With 4 CPUs the pool has 2 workers, and for
3 shards the code computes `max(1, 3 // 2) = 1`, while `ceil(3 / 2) = 2`. -/
theorem chunksize_is_not_ceiling :
    numCpus 4 = 2 ∧ chunksize 3 (numCpus 4) = 1 ∧
    (3 + numCpus 4 - 1) / numCpus 4 = 2 := by
  refine ⟨rfl, rfl, rfl⟩

/-- C8 (amended): `query_shards` uses a worker pool of size
`max(1, hardware_concurrency // 2)` and a `starmap` chunk size of
`max(1, num_shards // pool_size)` (floor division); the shard list is handed
out in consecutive chunks of at most that size whose concatenation is the
original list. -/
theorem query_shards_pool_and_chunks (cc : Nat) (shards : List Nat) :
    numCpus cc = max 1 (cc / 2) ∧
    chunksize shards.length (numCpus cc)
        = max 1 (shards.length / numCpus cc) ∧
    (chunkList (chunksize shards.length (numCpus cc)) shards).flatten
        = shards ∧
    ((chunkList (chunksize shards.length (numCpus cc)) shards).all
        (fun ch => ch.length ≤ chunksize shards.length (numCpus cc))) = true := by
  refine ⟨rfl, rfl, chunkList_flatten _ _, ?_⟩
  rw [List.all_eq_true]
  intro ch hch
  have h := chunkList_length_le (chunksize shards.length (numCpus cc)) shards ch hch
  have hmax : max 1 (chunksize shards.length (numCpus cc))
      = chunksize shards.length (numCpus cc) :=
    max_eq_right (le_max_left _ _)
  rw [hmax] at h
  exact decide_eq_true h

/-- C4: whenever a structure row satisfies the row-level predicate rendered
by `to_sql`, it also satisfies the prefilter predicate rendered by
`to_prefilter_sql` (under its default `only_literals=False` rendering): the
prefilter widens conjunctions to disjunctions and drops literal clauses, so
it selects a superset.  This holds for every single `Condition` and for
every `Criterion` whose conditions render a prefilter (a non-empty condition
list, each condition carrying a `values` list — otherwise `to_prefilter_sql`
renders no predicate at all). -/
theorem prefilter_selects_superset :
    (∀ (c : Condition) (r : SRow), c.values.isSome = true →
      c.toSqlHolds r = true → c.toPrefilterHolds r = true) ∧
    (∀ (cr : Criterion) (r : SRow), cr.conditions ≠ [] →
      (∀ c ∈ cr.conditions, c.values.isSome = true) →
      cr.toSqlHolds r = true → cr.toPrefilterHolds false r = true) := by
  refine ⟨toSqlHolds_implies_toPrefilterHolds, ?_⟩
  intro cr r hne hvals hs
  rw [Criterion.toPrefilterHolds]
  have hfilter : cr.conditions.filter (Condition.prefilterNonempty false)
      = cr.conditions :=
    List.filter_eq_self.mpr (fun c _ => rfl)
  rw [hfilter, List.any_eq_true]
  cases hop : cr.operation with
  | and =>
    rw [Criterion.toSqlHolds, hop, List.all_eq_true] at hs
    obtain ⟨c0, hc0⟩ := List.exists_mem_of_ne_nil cr.conditions hne
    exact ⟨c0, hc0,
      toSqlHolds_implies_toPrefilterHolds c0 r (hvals c0 hc0) (hs c0 hc0)⟩
  | or =>
    rw [Criterion.toSqlHolds, hop, List.any_eq_true] at hs
    obtain ⟨c0, hc0, hsql⟩ := hs
    exact ⟨c0, hc0,
      toSqlHolds_implies_toPrefilterHolds c0 r (hvals c0 hc0) hsql⟩

/-- C4 (witness): a conjunctive criterion over two `upos` conditions and a
row satisfying both; the row passes the prefilter. -/
theorem prefilter_selects_superset_witness :
    Criterion.toPrefilterHolds
        ⟨[⟨"upos", some ["NOUN"], none, 0⟩,
          ⟨"upos", some ["NOUN", "PROPN"], none, 0⟩], .and⟩
        false ⟨"upos", "NOUN", "cat"⟩ = true :=
  prefilter_selects_superset.2
    ⟨[⟨"upos", some ["NOUN"], none, 0⟩,
      ⟨"upos", some ["NOUN", "PROPN"], none, 0⟩], .and⟩
    ⟨"upos", "NOUN", "cat"⟩ (by decide) (by decide) (by decide)

/-- C9: `query_shards` broadcasts a single query to every shard; with as
many queries as shards it zips them pairwise in shard order; any other
query count raises a `ValueError` while constructing the shard/query
pairing, i.e. before any shard is queried. -/
theorem query_shards_routing {α β : Type} (queries : List α) (shards : List β) :
    (∀ q, queries = [q] →
      queryShardPairs queries shards = .ok (shards.map (fun sh => (q, sh)))) ∧
    (queries.length = shards.length →
      queryShardPairs queries shards = .ok (queries.zip shards)) ∧
    (queries.length ≠ 1 → queries.length ≠ shards.length →
      ∃ e, queryShardPairs queries shards = .error e) := by
  refine ⟨?_, ?_, ?_⟩
  · intro q hq
    subst hq
    rfl
  · intro hlen
    cases queries with
    | nil =>
      have hsh : shards = [] := List.length_eq_zero.mp hlen.symm
      subst hsh
      rfl
    | cons q qs =>
      cases qs with
      | nil =>
        obtain ⟨sh, hsh⟩ := List.length_eq_one.mp hlen.symm
        subst hsh
        rfl
      | cons q2 qs2 =>
        simp [queryShardPairs, hlen]
  · intro h1 h2
    cases queries with
    | nil =>
      refine ⟨"The number of queries does not match the number of shards.", ?_⟩
      simp only [queryShardPairs]
      rw [if_neg h2]
    | cons q qs =>
      cases qs with
      | nil => exact absurd rfl h1
      | cons q2 qs2 =>
        refine ⟨"The number of queries does not match the number of shards.", ?_⟩
        simp only [queryShardPairs]
        rw [if_neg h2]

/-- C9 (witness): one query over two shards broadcasts; two queries over two
shards zip; two queries over one shard error out. -/
theorem query_shards_routing_witness :
    queryShardPairs ["a"] ["s", "t"] = .ok [("a", "s"), ("a", "t")] ∧
    queryShardPairs ["a", "b"] ["s", "t"] = .ok [("a", "s"), ("b", "t")] ∧
    ∃ e, queryShardPairs ["a", "b"] ["s"] = .error e :=
  ⟨(query_shards_routing ["a"] ["s", "t"]).1 "a" rfl,
   (query_shards_routing ["a", "b"] ["s", "t"]).2.1 rfl,
   (query_shards_routing ["a", "b"] ["s"]).2.2 (by decide) (by decide)⟩

/-- C10: when the parallel shard queries return one row per requested
structure (their exports being a function of the `(shard, structure_id)`
key, as the per-shard `GROUP BY structures.id` queries guarantee),
`export_structures` yields exactly one export per input pair, in the order
of the input list — however the rows of different shards interleave. -/
theorem export_structures_input_order (inputs : List (Nat × Nat))
    (results : List (Nat × Nat × String)) (f : Nat × Nat → String)
    (hfun : ∀ r ∈ results, r.2.2 = f (r.1, r.2.1))
    (hcov : ∀ p ∈ inputs, ∃ r ∈ results, r.1 = p.1 ∧ r.2.1 = p.2) :
    exportStructures inputs results = inputs.map (fun p => some (f p)) := by
  rw [exportStructures]
  apply List.map_congr_left
  intro p hp
  rw [shardExports]
  have := shardExports_foldl_lookup f results none p.1 p.2 hfun
    (Or.inl (hcov p hp))
  rw [this]

/-- C10 (witness): two input pairs answered by rows arriving in the
opposite shard order still export in input order. -/
theorem export_structures_input_order_witness :
    exportStructures [(0, 5), (1, 7)] [(1, 7, "B"), (0, 5, "A")]
      = [some "A", some "B"] :=
  export_structures_input_order [(0, 5), (1, 7)] [(1, 7, "B"), (0, 5, "A")]
    (fun p => if p.1 = 0 then "A" else "B") (by decide) (by decide)

/-- C7 (counterexample): the claim says no emitted batch carries a
new-document marker on any sentence other than its first, i.e. a batch never
crosses a document boundary.  With `batch_size = 3` and the stream
`newdoc, plain, newdoc`, the boundary check is never reached (the batch is
still below capacity), so the single emitted batch contains the second
document's opening sentence at position 2. -/
theorem batch_crosses_document_boundary :
    getBatches 3 [⟨["newdoc"]⟩, ⟨[]⟩, ⟨["newdoc"]⟩]
      = [[⟨["newdoc"]⟩, ⟨[]⟩, ⟨["newdoc"]⟩]] ∧
    (getBoundary ⟨["newdoc"]⟩).isSome = true := by
  refine ⟨by decide, rfl⟩

/-- C7 (amended): a new-document marker can sit inside an emitted batch only
at a position below `batch_size` (documents shorter than `batch_size` are
not split off); once a batch has reached `batch_size`, a sentence carrying a
new-document signal always starts a new batch, so markers never appear at
positions `≥ max(1, batch_size)`. -/
theorem batches_boundary_positions (bs : Nat) (ss : List Sent) :
    ∀ b ∈ getBatches bs ss, ∀ i (h : i < b.length),
      (getBoundary (b.get ⟨i, h⟩)).isSome = true → i = 0 ∨ i < bs := by
  intro b hb
  exact getBatchesGo_boundary_inv bs ss [] false
    (by
      intro i h
      simp at h) b hb

/-- C7 (witness): applying the invariant to the first batch of a concrete
run. -/
theorem batches_boundary_positions_witness : 0 = 0 ∨ 0 < 1 :=
  batches_boundary_positions 1 [⟨["newdoc"]⟩, ⟨[]⟩, ⟨["newdoc"]⟩]
    [⟨["newdoc"]⟩] (by decide) 0 (by decide) (by decide)

end Decaf
